import Mathlib

/-!
Shallow embedding of the journalist-directory application:
`src/app.py` (cached full scan, LIKE search, tag merge, network graph
builder) and `src/create_db.py` (CSV importer), together with theorems
checking the specification's claims about these operations.

Strings are modelled as Lean `String` (a list of characters); Python's
string methods used by the code (`strip`, `lower`, `split(',')`,
`replace('.', '')`) are embedded character by character.  Case folding
is modelled for ASCII letters, which also matches SQLite's default
case-insensitive `LIKE` operator.
-/

namespace JournalistDB

/-- The ASCII whitespace characters removed by Python `str.strip()`. -/
def isPyWhitespace (c : Char) : Bool :=
  c == ' ' || c == '\t' || c == '\n' || c == '\r' || c == '\x0b' || c == '\x0c'

/-- Python `str.strip()` on a character list: drop leading and trailing
whitespace. -/
def pyStripChars (l : List Char) : List Char :=
  ((l.dropWhile isPyWhitespace).reverse.dropWhile isPyWhitespace).reverse

/-- Python `str.strip()`. -/
def pyStrip (s : String) : String := String.mk (pyStripChars s.toList)

/-- Python `str.lower()` (ASCII letters; the comparisons in the code are
over tag text, and SQLite's `LIKE` folds only ASCII as well). -/
def pyLower (s : String) : String := String.mk (s.toList.map Char.toLower)

/-- Python `str.split(',')` on a character list; splitting the empty
string yields one empty segment, as in Python. -/
def splitCommaChars : List Char → List (List Char)
  | [] => [[]]
  | c :: cs =>
    if c = ',' then [] :: splitCommaChars cs
    else
      match splitCommaChars cs with
      | [] => [[c]]
      | seg :: rest => (c :: seg) :: rest

/-- Python `str.split(',')`. -/
def splitComma (s : String) : List String := (splitCommaChars s.toList).map String.mk

/-- Python `str.replace('.', '')`: remove every period. -/
def stripPeriods (s : String) : String :=
  String.mk (s.toList.filter (fun c => c != '.'))

/-- Outcome of the duplicate-checked tag merge inside
`add_interest_to_journalist` (src/app.py lines 110-120): either the
warning path (tag considered already present, nothing written) or the
updated subjects string that is written back. -/
inductive MergeResult where
  | alreadyExists : MergeResult
  | updated : String → MergeResult
deriving DecidableEq

/-- The merge logic of `add_interest_to_journalist`: the new interest is
trimmed and lowercased and compared against each existing comma-separated
segment lowercased (the code lowercases the segments but does not trim
them or strip periods); when no segment matches, the trimmed interest is
appended to the raw current string after a comma and a space
(`f"{current_interests}, {new_interest.strip()}"`). -/
def mergeInterest (current newInterest : String) : MergeResult :=
  if pyLower (pyStrip newInterest) ∈ (splitComma current).map pyLower then
    MergeResult.alreadyExists
  else
    MergeResult.updated (current ++ ", " ++ pyStrip newInterest)

/-- One row of the `journalists` table, with its SQLite `rowid` and the
columns the core operations read (`Namn`, `Ämnesområden`,
`Analys av Position`). -/
structure Row where
  rowid : Nat
  namn : String
  amnesomraden : String
  analys : String
deriving DecidableEq

/-- Process state: the persisted table plus the `st.cache_data` cache of
`get_all_journalists` (`none` when empty or cleared; the time-based
expiry is not modelled, only population and invalidation). -/
structure AppState where
  db : List Row
  cache : Option (List Row)
deriving DecidableEq

/-- `SELECT Ämnesområden FROM journalists WHERE rowid = ?` followed by
`fetchone()`: the first row with the given rowid, if any. -/
def findRow (db : List Row) (rid : Nat) : Option Row :=
  db.find? (fun r => r.rowid == rid)

/-- `UPDATE journalists SET Ämnesområden = ? WHERE rowid = ?`. -/
def updateRowSubjects (db : List Row) (rid : Nat) (s : String) : List Row :=
  db.map (fun r => if r.rowid = rid then { r with amnesomraden := s } else r)

/-- The observable outcomes of `add_interest_to_journalist`: skipped
(falsy `new_interest`, body never entered), the already-exists warning,
a successful update, the missing-rowid warning, and a database error
raised by the write (caught by the `except sqlite3.Error` arm). -/
inductive AddOutcome where
  | skipped : AddOutcome
  | alreadyExists : AddOutcome
  | updated : AddOutcome
  | notFound : AddOutcome
  | dbError : AddOutcome
deriving DecidableEq

/-- `add_interest_to_journalist(rowid, new_interest)` (src/app.py lines
101-128), as a state transition.  The connection is assumed obtained
(`conn` truthy); `new_interest` truthiness is `new_interest ≠ ""`.  The
`finally` block runs `get_all_journalists.clear()` on every path through
the body — success, early `return` on duplicate, missing row, and the
`sqlite3.Error` handler alike — which the model renders by setting
`cache := none` on each of those paths.  `writeFails` selects the
`sqlite3.Error` path of the UPDATE/commit. -/
def addInterest (writeFails : Bool) (st : AppState) (rid : Nat)
    (newInterest : String) : AddOutcome × AppState :=
  if newInterest = "" then (AddOutcome.skipped, st)
  else
    match findRow st.db rid with
    | some r =>
      match mergeInterest r.amnesomraden newInterest with
      | MergeResult.alreadyExists =>
          (AddOutcome.alreadyExists, { st with cache := none })
      | MergeResult.updated s =>
          if writeFails then (AddOutcome.dbError, { st with cache := none })
          else (AddOutcome.updated,
                { db := updateRowSubjects st.db rid s, cache := none })
    | none => (AddOutcome.notFound, { st with cache := none })

/-- `get_all_journalists` under `@st.cache_data`: return the cached scan
when present, otherwise read the table and populate the cache. -/
def getAllJournalists (st : AppState) : List Row × AppState :=
  match st.cache with
  | some v => (v, st)
  | none => (st.db, { st with cache := some st.db })

/-- SQLite `LIKE` case folding: ASCII letters compare case-insensitively. -/
def charEqCI (a b : Char) : Bool := a.toLower == b.toLower

/-- `anySuffix g s` is true when `g` accepts some suffix of `s`
(including `s` itself and the empty suffix); used for the `%` wildcard. -/
def anySuffix (g : List Char → Bool) : List Char → Bool
  | [] => g []
  | c :: s => g (c :: s) || anySuffix g s

/-- SQLite `LIKE` pattern matching: `%` matches any (possibly empty)
character sequence, `_` matches exactly one character, and any other
pattern character matches one input character up to ASCII case. -/
def likeMatch : List Char → List Char → Bool
  | [], s => s.isEmpty
  | c :: ps, s =>
    if c = '%' then anySuffix (likeMatch ps) s
    else
      match s with
      | [] => false
      | d :: s' => (if c = '_' then true else charEqCI c d) && likeMatch ps s'

/-- The pattern `search_journalists` builds: `f"%{search_term}%"`, the
raw term interpolated between two `%` wildcards, unescaped. -/
def likePattern (term : String) : List Char := ("%" ++ term ++ "%").toList

/-- The row predicate of the search query:
`Ämnesområden LIKE ? OR "Analys av Position" LIKE ?`. -/
def rowMatches (term : String) (r : Row) : Bool :=
  likeMatch (likePattern term) r.amnesomraden.toList
    || likeMatch (likePattern term) r.analys.toList

/-- `search_journalists(search_term)` (src/app.py lines 80-98): the rows
whose subjects or analysis column matches `%term%`. -/
def searchJournalists (db : List Row) (term : String) : List Row :=
  db.filter (rowMatches term)

/-- `needle` occurs at the start of `hay`, character for character. -/
def leadsWith : List Char → List Char → Bool
  | [], _ => true
  | _ :: _, [] => false
  | a :: as, b :: bs => a == b && leadsWith as bs

/-- `needle` occurs as a contiguous literal substring of `hay`. -/
def listIsSubstr (needle : List Char) : List Char → Bool
  | [] => leadsWith needle []
  | c :: hs => leadsWith needle (c :: hs) || listIsSubstr needle hs

/-- One row of the pandas DataFrame handed to
`generate_network_visualization`: the `Namn` column and the nullable
`Ämnesområden` column. -/
structure VizRow where
  namn : String
  amnesomraden : Option String
deriving DecidableEq

/-- The pyvis `Network` state touched by the code: node identifiers in
insertion order and the undirected edge list. -/
structure Net where
  nodes : List String
  edges : List (String × String)
deriving DecidableEq

/-- pyvis `Network.add_node`: a node whose id is already present is not
added again. -/
def addNode (net : Net) (id : String) : Net :=
  if id ∈ net.nodes then net else { net with nodes := net.nodes ++ [id] }

/-- Two undirected edges connect the same pair of node identities. -/
def sameEdge (e1 e2 : String × String) : Prop :=
  (e1.1 = e2.1 ∧ e1.2 = e2.2) ∨ (e1.1 = e2.2 ∧ e1.2 = e2.1)

instance (e1 e2 : String × String) : Decidable (sameEdge e1 e2) := by
  unfold sameEdge; infer_instance

/-- pyvis `Network.add_edge` duplicate test for an undirected network:
some stored edge already joins `a` and `b` in either orientation. -/
def edgeExists (es : List (String × String)) (a b : String) : Bool :=
  es.any (fun e => decide (sameEdge e (a, b)))

/-- pyvis `Network.add_edge`: the edge is appended only when no edge
between the same pair exists (both endpoints are asserted to be existing
nodes, which the call sites below guarantee). -/
def addEdge (net : Net) (a b : String) : Net :=
  if edgeExists net.edges a b then net
  else { net with edges := net.edges ++ [(a, b)] }

/-- The subject-cleaning comprehension of the graph builder
(src/app.py line 183):
`[s.strip().replace('.', '') for s in sub_list.split(',') if s.strip()]`. -/
def cleanSubjects (subList : String) : List String :=
  ((splitComma subList).filter (fun s => pyStrip s != "")).map
    (fun s => stripPeriods (pyStrip s))

/-- `pandas.unique` / first-occurrence deduplication, also standing in
for the Python `set` of subjects (membership is what the graph code
consumes; iteration order of a hash set is arbitrary and no claim
depends on it). -/
def pandasUnique (l : List String) : List String :=
  l.foldl (fun acc x => if x ∈ acc then acc else acc ++ [x]) []

/-- The accumulated subject set of the graph builder:
`for sub_list in df['Ämnesområden'].dropna(): subjects.update(cleaned)`. -/
def collectSubjects (rows : List VizRow) : List String :=
  pandasUnique ((rows.filterMap VizRow.amnesomraden).flatMap cleanSubjects)

/-- The cleaned subject list of one row in the edge loop (`[]` when the
column is null, which `pd.notna` skips). -/
def rowSubjects (r : VizRow) : List String :=
  match r.amnesomraden with
  | none => []
  | some s => cleanSubjects s

/-- `generate_network_visualization` graph construction (src/app.py
lines 177-199): one node per unique journalist name, one per collected
subject, then an edge from each row's name to each of its cleaned
subjects. -/
def buildNetwork (rows : List VizRow) : Net :=
  rows.foldl
    (fun net r => (rowSubjects r).foldl (fun n s => addEdge n r.namn s) net)
    ((collectSubjects rows).foldl addNode
      ((pandasUnique (rows.map VizRow.namn)).foldl addNode ⟨[], []⟩))

/-- One CSV row as read by the importer: the two essential columns,
`none` when the cell is missing (pandas `NaN`).  The remaining free-text
columns play no role in the dropna filter and are not modelled. -/
structure CsvRow where
  namn : Option String
  amnesomraden : Option String
deriving DecidableEq

/-- `df.dropna(subset=['Namn', 'Ämnesområden'])`: keep exactly the rows
that have both essential values. -/
def dropnaNameSubjects (rows : List CsvRow) : List CsvRow :=
  rows.filter (fun r => r.namn.isSome && r.amnesomraden.isSome)

/-- The counts the importer prints: rows loaded from the CSV and rows
remaining after cleaning. -/
structure ImportReport where
  rowsLoaded : Nat
  rowsRemaining : Nat
deriving DecidableEq

/-- `create_database_from_csv` (src/create_db.py lines 21-41): drop the
incomplete rows, then `to_sql(..., if_exists='replace')`, which discards
`oldTable` (the prior content of the `journalists` table) entirely and
installs the surviving rows. -/
def createDatabaseFromCsv (rows _oldTable : List CsvRow) :
    List CsvRow × ImportReport :=
  let kept := dropnaNameSubjects rows
  (kept, { rowsLoaded := rows.length, rowsRemaining := kept.length })

/-! ### Helper lemmas about the embedded string primitives -/

theorem splitCommaChars_ne_nil (l : List Char) : splitCommaChars l ≠ [] := by
  cases l with
  | nil => simp [splitCommaChars]
  | cons c cs =>
    simp only [splitCommaChars]
    split
    · simp
    · split <;> simp

theorem mem_splitCommaChars_no_comma (l : List Char) :
    ∀ seg ∈ splitCommaChars l, ',' ∉ seg := by
  induction l with
  | nil =>
    intro seg h
    simp [splitCommaChars] at h
    simp [h]
  | cons c cs ih =>
    intro seg h
    simp only [splitCommaChars] at h
    by_cases hc : c = ','
    · rw [if_pos hc] at h
      rcases List.mem_cons.mp h with h1 | h2
      · simp [h1]
      · exact ih seg h2
    · rw [if_neg hc] at h
      rcases hsplit : splitCommaChars cs with _ | ⟨seg0, rest⟩
      · exact absurd hsplit (splitCommaChars_ne_nil cs)
      · rw [hsplit] at h
        rcases List.mem_cons.mp h with h1 | h2
        · subst h1
          intro hmem
          rcases List.mem_cons.mp hmem with h3 | h4
          · exact hc h3.symm
          · exact ih seg0 (by rw [hsplit]; exact List.mem_cons_self _ _) h4
        · exact ih seg (by rw [hsplit]; exact List.mem_cons_of_mem _ h2)

theorem mem_of_mem_pyStripChars {c : Char} {l : List Char}
    (h : c ∈ pyStripChars l) : c ∈ l := by
  unfold pyStripChars at h
  rw [List.mem_reverse] at h
  have h2 := (List.dropWhile_sublist (l := (l.dropWhile isPyWhitespace).reverse)
    (p := isPyWhitespace)).mem h
  rw [List.mem_reverse] at h2
  exact (List.dropWhile_sublist (p := isPyWhitespace)).mem h2

/-! ### Claims about the tag model -/

/-- C1: the duplicate check of `add_interest_to_journalist` is not
idempotent.  Merging "Ekonomi" into "Politik" succeeds and writes back
"Politik, Ekonomi"; merging the same tag again compares "ekonomi" with
the untrimmed segment " ekonomi" and appends a duplicate instead of
reporting it already exists.  The check also misses an existing tag that
differs only by a trailing period. -/
theorem C1_merge_not_idempotent :
    mergeInterest "Politik" "Ekonomi" = MergeResult.updated "Politik, Ekonomi" ∧
    mergeInterest "Politik, Ekonomi" "Ekonomi"
        = MergeResult.updated "Politik, Ekonomi, Ekonomi" ∧
    mergeInterest "Politik." "Politik" = MergeResult.updated "Politik., Politik" := by
  decide

/-- C4: with an empty stored subjects field, the merge does not yield the
bare trimmed tag; it appends after the empty string, producing a leading
", " delimiter and hence a stray empty segment. -/
theorem C4_empty_subjects_not_bare_tag :
    mergeInterest "" "Politik" = MergeResult.updated ", Politik" := by decide

example : likeMatch (likePattern "") "Politik".toList = true := by decide
example : likeMatch (likePattern "a%b") "axxb".toList = true := by decide
example : listIsSubstr "a%b".toList "axxb".toList = false := by decide
example : cleanSubjects "Politik, Ekonomi.,  Miljö " = ["Politik", "Ekonomi", "Miljö"] := by decide
example : cleanSubjects "Politik, ." = ["Politik", ""] := by decide
example : mergeInterest "Politik, Ekonomi" "politik" = MergeResult.alreadyExists := by decide
example : mergeInterest "Politik" "Ekonomi" = MergeResult.updated "Politik, Ekonomi" := by decide
example : mergeInterest "Politik, Ekonomi" "Ekonomi"
    = MergeResult.updated "Politik, Ekonomi, Ekonomi" := by decide
example : mergeInterest "" "Politik" = MergeResult.updated ", Politik" := by decide
example : splitComma "" = [""] := by decide
example : pyStrip "  a b " = "a b" := by decide

/-! ### C2: parseTags members -/

/-- C2 counterexample: the subject-cleaning step keeps a segment that
consists of a period (it is non-empty before the period strip), and the
period strip then turns it into an empty member. -/
theorem C2_cex : "" ∈ cleanSubjects "Politik, ." := by decide

/-- C2 (amended): no member of the cleaned subject list contains a
comma; an empty member can arise only from a segment that trims to a
non-empty string consisting solely of periods. -/
theorem C2_parse_tags (s t : String) (ht : t ∈ cleanSubjects s) :
    ',' ∉ t.toList ∧
      (t = "" → ∃ seg ∈ splitComma s, pyStrip seg ≠ "" ∧
        ∀ c ∈ (pyStrip seg).toList, c = '.') := by
  unfold cleanSubjects at ht
  rcases List.mem_map.mp ht with ⟨seg, hseg, rfl⟩
  rcases List.mem_filter.mp hseg with ⟨hmem, hne⟩
  have hneq : pyStrip seg ≠ "" := by simpa using hne
  rcases List.mem_map.mp hmem with ⟨segChars, hsegChars, rfl⟩
  constructor
  · intro hcomma
    have h0 : ',' ∈ (pyStrip (String.mk segChars)).toList.filter (fun c => c != '.') :=
      hcomma
    have h1 : ',' ∈ (pyStrip (String.mk segChars)).toList := List.mem_of_mem_filter h0
    have h2 : ',' ∈ segChars := mem_of_mem_pyStripChars h1
    exact mem_splitCommaChars_no_comma _ segChars hsegChars h2
  · intro hnil
    refine ⟨String.mk segChars, List.mem_map.mpr ⟨segChars, hsegChars, rfl⟩, hneq, ?_⟩
    intro c hc
    have h0 : (pyStrip (String.mk segChars)).toList.filter (fun c => c != '.') = [] :=
      congrArg String.toList hnil
    have h1 := List.filter_eq_nil_iff.mp h0 c hc
    simpa using h1

/-- C2 witness: a member produced from a well-formed subjects string has
no comma; the empty-member case is vacuous for it. -/
theorem C2_witness :
    ',' ∉ "Politik".toList ∧
      ("Politik" = "" → ∃ seg ∈ splitComma "Politik, Ekonomi.,  Miljö ",
        pyStrip seg ≠ "" ∧ ∀ c ∈ (pyStrip seg).toList, c = '.') :=
  C2_parse_tags "Politik, Ekonomi.,  Miljö " "Politik" (by decide)

/-! ### C3: empty / whitespace-only new tag -/

/-- A concrete stored row used by several concrete evaluations below. -/
def annaRow : Row :=
  { rowid := 1, namn := "Anna", amnesomraden := "Politik", analys := "analys" }

/-- C3: a whitespace-only new interest is truthy, so the body runs; the
trimmed-empty tag misses every existing segment and is appended,
mutating the stored subjects to "Politik, " — there is no `EmptyTag`
rejection.  A literally empty new interest is falsy and the body is
silently skipped (again without an `EmptyTag` error). -/
theorem C3_whitespace_tag_not_rejected :
    addInterest false { db := [annaRow], cache := none } 1 "  "
      = (AddOutcome.updated,
         { db := [{ annaRow with amnesomraden := "Politik, " }], cache := none }) ∧
    addInterest false { db := [annaRow], cache := none } 1 ""
      = (AddOutcome.skipped, { db := [annaRow], cache := none }) := by
  decide

/-! ### C5 and C9: search behavior -/

theorem anySuffix_eq_true_of_nil (g : List Char → Bool) (hg : g [] = true) :
    ∀ s, anySuffix g s = true := by
  intro s
  induction s with
  | nil => simpa [anySuffix] using hg
  | cons c s ih => simp [anySuffix, ih]

theorem anySuffix_eq_true_of_forall (g : List Char → Bool)
    (hg : ∀ t, g t = true) (s : List Char) : anySuffix g s = true := by
  cases s with
  | nil => simpa [anySuffix] using hg []
  | cons c s => simp [anySuffix, hg]

theorem likeMatch_single_pct (s : List Char) : likeMatch ['%'] s = true := by
  have h : likeMatch ['%'] s = anySuffix (likeMatch []) s := by simp [likeMatch]
  rw [h]
  exact anySuffix_eq_true_of_nil _ rfl s

theorem likeMatch_double_pct (s : List Char) : likeMatch ['%', '%'] s = true := by
  have h : likeMatch ['%', '%'] s = anySuffix (likeMatch ['%']) s := by simp [likeMatch]
  rw [h]
  exact anySuffix_eq_true_of_forall _ likeMatch_single_pct s

theorem rowMatches_empty_term (r : Row) : rowMatches "" r = true := by
  unfold rowMatches
  have hp : likePattern "" = ['%', '%'] := by decide
  rw [hp, likeMatch_double_pct]
  simp

/-- C5 counterexample: with one stored row, searching for the empty term
returns that row — the pattern `%%` matches everything — so the result
is not the empty sequence the claim requires. -/
theorem C5_cex : searchJournalists [annaRow] "" ≠ [] := by decide

/-- C5 (amended): a term whose `LIKE` pattern matches no record returns
the empty sequence (and the search is a total function, never an
error); the empty term instead matches every record and `search("")`
returns the whole table. -/
theorem C5_search (db : List Row) (term : String) :
    searchJournalists db "" = db ∧
      ((∀ r ∈ db, rowMatches term r = false) → searchJournalists db term = []) := by
  constructor
  · unfold searchJournalists
    apply List.filter_eq_self.mpr
    intro r _
    exact rowMatches_empty_term r
  · intro h
    unfold searchJournalists
    apply List.filter_eq_nil_iff.mpr
    intro r hr
    simp [h r hr]

/-- C5 witness: a term occurring nowhere yields the empty result. -/
theorem C5_witness :
    (∀ r ∈ [annaRow], rowMatches "zzz" r = false) ∧
      searchJournalists [annaRow] "zzz" = [] :=
  ⟨by decide, (C5_search [annaRow] "zzz").2 (by decide)⟩

/-- A stored row whose subjects contain the wildcard's expansion but not
the literal search text. -/
def wildcardRow : Row :=
  { rowid := 2, namn := "Bo", amnesomraden := "axxb", analys := "" }

/-- C9: a search term containing `%` (or `_`) is interpolated unescaped
into the `LIKE` pattern, so a record is returned although the term never
occurs literally in its subjects or analysis. -/
theorem C9_wildcards :
    ∃ (term : String) (r : Row),
      ('%' ∈ term.toList ∨ '_' ∈ term.toList) ∧
      listIsSubstr term.toList r.amnesomraden.toList = false ∧
      listIsSubstr term.toList r.analys.toList = false ∧
      searchJournalists [r] term = [r] :=
  ⟨"a%b", wildcardRow, Or.inl (by decide), by decide, by decide, by decide⟩

/-! ### C6 and C10: cache invalidation -/

theorem findRow_updateRowSubjects (db : List Row) (rid : Nat) (s : String) :
    findRow (updateRowSubjects db rid s) rid
      = (findRow db rid).map (fun r => { r with amnesomraden := s }) := by
  induction db with
  | nil => rfl
  | cons d ds ih =>
    show findRow ((if d.rowid = rid then { d with amnesomraden := s } else d)
        :: updateRowSubjects ds rid s) rid = _
    by_cases h : d.rowid = rid
    · rw [if_pos h]
      unfold findRow
      rw [List.find?_cons_of_pos _ (by simp [h]), List.find?_cons_of_pos _ (by simp [h])]
      rfl
    · rw [if_neg h]
      unfold findRow
      rw [List.find?_cons_of_neg _ (by simp [h]), List.find?_cons_of_neg _ (by simp [h])]
      exact ih

/-- C6: when `add_interest_to_journalist` succeeds, the resulting state
has an empty cache, an immediately following cached scan reads the
current table rather than any stale cache, and the targeted row carries
the newly appended subjects value (read-your-writes). -/
theorem C6_read_your_writes (st : AppState) (rid : Nat) (tag : String)
    (h : (addInterest false st rid tag).1 = AddOutcome.updated) :
    (addInterest false st rid tag).2.cache = none ∧
    (getAllJournalists (addInterest false st rid tag).2).1
        = (addInterest false st rid tag).2.db ∧
    ∃ r, findRow st.db rid = some r ∧
      findRow (getAllJournalists (addInterest false st rid tag).2).1 rid
        = some { r with amnesomraden := r.amnesomraden ++ ", " ++ pyStrip tag } := by
  by_cases htag : tag = ""
  · exfalso
    simp [addInterest, htag] at h
  · rcases hr : findRow st.db rid with _ | r
    · exfalso
      simp [addInterest, htag, hr] at h
    · rcases hm : mergeInterest r.amnesomraden tag with _ | s
      · exfalso
        simp [addInterest, htag, hr, hm] at h
      · have hstep : addInterest false st rid tag
            = (AddOutcome.updated,
               { db := updateRowSubjects st.db rid s, cache := none }) := by
          simp [addInterest, htag, hr, hm]
        have hs : s = r.amnesomraden ++ ", " ++ pyStrip tag := by
          unfold mergeInterest at hm
          by_cases hmem :
              pyLower (pyStrip tag) ∈ (splitComma r.amnesomraden).map pyLower
          · rw [if_pos hmem] at hm
            cases hm
          · rw [if_neg hmem] at hm
            injection hm with hm'
            exact hm'.symm
        rw [hstep]
        refine ⟨rfl, rfl, r, rfl, ?_⟩
        show findRow (updateRowSubjects st.db rid s) rid = _
        rw [findRow_updateRowSubjects, hr, hs]
        rfl

/-- A state with a stale cached scan (the cache disagrees with the
table), for exercising the invalidation theorems. -/
def staleState : AppState := { db := [annaRow], cache := some [] }

/-- C6 witness: adding "Ekonomi" to the stored row succeeds, and the
next scan returns the updated table, not the stale cached value. -/
theorem C6_witness :
    (addInterest false staleState 1 "Ekonomi").1 = AddOutcome.updated ∧
      (getAllJournalists (addInterest false staleState 1 "Ekonomi").2).1
        = (addInterest false staleState 1 "Ekonomi").2.db :=
  ⟨by decide, (C6_read_your_writes staleState 1 "Ekonomi" (by decide)).2.1⟩

/-- C10: once the body of `add_interest_to_journalist` is entered (a
connection and a truthy new interest), the `finally` block clears the
scan cache on every outcome — duplicate warning, missing row, database
error, and success alike. -/
theorem C10_cache_cleared_on_every_outcome (wf : Bool) (st : AppState)
    (rid : Nat) (tag : String) (h : tag ≠ "") :
    ((addInterest wf st rid tag).2).cache = none := by
  cases hfr : findRow st.db rid with
  | none => simp [addInterest, h, hfr]
  | some r =>
    cases hm : mergeInterest r.amnesomraden tag with
    | alreadyExists => simp [addInterest, h, hfr, hm]
    | updated s => cases wf <;> simp [addInterest, h, hfr, hm]

/-- C10 witness: even when the write raises a database error, the cache
is cleared. -/
theorem C10_witness :
    ("Ekonomi" ≠ "") ∧ ((addInterest true staleState 1 "Ekonomi").2).cache = none :=
  ⟨by decide, C10_cache_cleared_on_every_outcome true staleState 1 "Ekonomi" (by decide)⟩

/-! ### C7: graph node and edge uniqueness -/

theorem addNode_edges (net : Net) (x : String) : (addNode net x).edges = net.edges := by
  unfold addNode
  split <;> rfl

theorem foldl_addNode_edges (l : List String) (net : Net) :
    (l.foldl addNode net).edges = net.edges := by
  induction l generalizing net with
  | nil => rfl
  | cons x xs ih => rw [List.foldl_cons, ih, addNode_edges]

theorem addNode_nodes_nodup (net : Net) (x : String) (h : net.nodes.Nodup) :
    (addNode net x).nodes.Nodup := by
  unfold addNode
  split
  · exact h
  · rename_i hx
    simp [List.nodup_append, h, hx]

theorem mem_addNode_self (net : Net) (x : String) : x ∈ (addNode net x).nodes := by
  unfold addNode
  split
  · assumption
  · simp

theorem mem_addNode_of_mem (net : Net) (x y : String) (h : y ∈ net.nodes) :
    y ∈ (addNode net x).nodes := by
  unfold addNode
  split
  · exact h
  · simp [h]

theorem foldl_addNode_nodup (l : List String) (net : Net) (h : net.nodes.Nodup) :
    (l.foldl addNode net).nodes.Nodup := by
  induction l generalizing net with
  | nil => exact h
  | cons x xs ih => exact ih _ (addNode_nodes_nodup net x h)

theorem mem_foldl_addNode_of_mem_init (l : List String) (net : Net) (y : String)
    (h : y ∈ net.nodes) : y ∈ (l.foldl addNode net).nodes := by
  induction l generalizing net with
  | nil => exact h
  | cons x xs ih => exact ih _ (mem_addNode_of_mem net x y h)

theorem mem_foldl_addNode_of_mem (l : List String) (net : Net) (y : String)
    (h : y ∈ l) : y ∈ (l.foldl addNode net).nodes := by
  induction l generalizing net with
  | nil => cases h
  | cons x xs ih =>
    rcases List.mem_cons.mp h with rfl | h2
    · exact mem_foldl_addNode_of_mem_init xs _ y (mem_addNode_self net y)
    · exact ih _ h2

theorem addEdge_nodes (net : Net) (a b : String) : (addEdge net a b).nodes = net.nodes := by
  unfold addEdge
  split <;> rfl

/-- No two stored edges join the same unordered pair of node identities. -/
def edgesOk (es : List (String × String)) : Prop :=
  es.Pairwise (fun e1 e2 => ¬ sameEdge e1 e2)

theorem addEdge_edgesOk (net : Net) (a b : String) (h : edgesOk net.edges) :
    edgesOk (addEdge net a b).edges := by
  unfold addEdge
  split
  · exact h
  · rename_i hex
    unfold edgesOk at h ⊢
    rw [List.pairwise_append]
    refine ⟨h, List.pairwise_singleton _ _, ?_⟩
    intro e1 he1 e2 he2
    rw [List.mem_singleton] at he2
    subst he2
    intro hsame
    apply hex
    unfold edgeExists
    rw [List.any_eq_true]
    exact ⟨e1, he1, by simpa using hsame⟩

theorem foldl_addEdge_nodes (ss : List String) (a : String) (net : Net) :
    (ss.foldl (fun n s => addEdge n a s) net).nodes = net.nodes := by
  induction ss generalizing net with
  | nil => rfl
  | cons s ss ih => rw [List.foldl_cons, ih, addEdge_nodes]

theorem foldl_addEdge_edgesOk (ss : List String) (a : String) (net : Net)
    (h : edgesOk net.edges) :
    edgesOk ((ss.foldl (fun n s => addEdge n a s) net).edges) := by
  induction ss generalizing net with
  | nil => exact h
  | cons s ss ih => exact ih _ (addEdge_edgesOk net a s h)

theorem edgePhase_nodes (rows : List VizRow) (net : Net) :
    (rows.foldl
        (fun net r => (rowSubjects r).foldl (fun n s => addEdge n r.namn s) net)
        net).nodes = net.nodes := by
  induction rows generalizing net with
  | nil => rfl
  | cons r rs ih => rw [List.foldl_cons, ih, foldl_addEdge_nodes]

theorem edgePhase_edgesOk (rows : List VizRow) (net : Net) (h : edgesOk net.edges) :
    edgesOk ((rows.foldl
        (fun net r => (rowSubjects r).foldl (fun n s => addEdge n r.namn s) net)
        net).edges) := by
  induction rows generalizing net with
  | nil => exact h
  | cons r rs ih => exact ih _ (foldl_addEdge_edgesOk _ _ _ h)

theorem mem_foldl_insert (l : List String) (acc : List String) (x : String) :
    (x ∈ l.foldl (fun acc y => if y ∈ acc then acc else acc ++ [y]) acc)
      ↔ x ∈ acc ∨ x ∈ l := by
  induction l generalizing acc with
  | nil => simp
  | cons y ys ih =>
    rw [List.foldl_cons]
    by_cases hy : y ∈ acc
    · rw [if_pos hy, ih]
      constructor
      · rintro (h | h)
        · exact Or.inl h
        · exact Or.inr (List.mem_cons_of_mem _ h)
      · rintro (h | h)
        · exact Or.inl h
        · rcases List.mem_cons.mp h with rfl | h2
          · exact Or.inl hy
          · exact Or.inr h2
    · rw [if_neg hy, ih]
      simp only [List.mem_append, List.mem_singleton, List.mem_cons]
      tauto

theorem mem_pandasUnique (l : List String) (x : String) :
    x ∈ pandasUnique l ↔ x ∈ l := by
  unfold pandasUnique
  rw [mem_foldl_insert]
  simp

/-- C7: the graph built by `generate_network_visualization` has
duplicate-free node identifiers, each tag occurring in some record's
cleaned subjects appears as exactly one node, and no unordered pair of
node identities carries more than one edge. -/
theorem C7_graph (rows : List VizRow) :
    (buildNetwork rows).nodes.Nodup ∧
    (∀ r ∈ rows, ∀ t ∈ rowSubjects r, (buildNetwork rows).nodes.count t = 1) ∧
    edgesOk (buildNetwork rows).edges := by
  have hnodes : (buildNetwork rows).nodes
      = ((collectSubjects rows).foldl addNode
          ((pandasUnique (rows.map VizRow.namn)).foldl addNode ⟨[], []⟩)).nodes := by
    unfold buildNetwork
    exact edgePhase_nodes rows _
  have hnodup : (buildNetwork rows).nodes.Nodup := by
    rw [hnodes]
    exact foldl_addNode_nodup _ _ (foldl_addNode_nodup _ _ List.nodup_nil)
  refine ⟨hnodup, ?_, ?_⟩
  · intro r hr t ht
    have hmem : t ∈ (buildNetwork rows).nodes := by
      rw [hnodes]
      apply mem_foldl_addNode_of_mem
      unfold collectSubjects
      rw [mem_pandasUnique]
      rcases hsub : r.amnesomraden with _ | s
      · unfold rowSubjects at ht
        rw [hsub] at ht
        cases ht
      · apply List.mem_flatMap.mpr
        refine ⟨s, List.mem_filterMap.mpr ⟨r, hr, hsub⟩, ?_⟩
        unfold rowSubjects at ht
        rw [hsub] at ht
        exact ht
    exact List.count_eq_one_of_mem hnodup hmem
  · unfold buildNetwork
    apply edgePhase_edgesOk
    rw [foldl_addNode_edges, foldl_addNode_edges]
    exact List.Pairwise.nil

/-- The two-record example of the specification: records A with subject
X and B with subjects X, Y. -/
def vizExample : List VizRow := [⟨"A", some "X"⟩, ⟨"B", some "X, Y"⟩]

example : buildNetwork vizExample
    = ⟨["A", "B", "X", "Y"], [("A", "X"), ("B", "X"), ("B", "Y")]⟩ := by decide

/-- C7 witness: on the two-record example, the tag X shared by both
records yields exactly one node, the node list is duplicate-free, and
the edges are pairwise distinct as unordered pairs. -/
theorem C7_witness :
    (buildNetwork vizExample).nodes.Nodup ∧
    (buildNetwork vizExample).nodes.count "X" = 1 ∧
    edgesOk (buildNetwork vizExample).edges :=
  ⟨(C7_graph vizExample).1,
   (C7_graph vizExample).2.1 ⟨"B", some "X, Y"⟩ (by decide) "X" (by decide),
   (C7_graph vizExample).2.2⟩

/-! ### C8: importer -/

/-- The specification's importer example: three complete rows and one
row missing its name. -/
def c8Rows : List CsvRow :=
  [{ namn := some "Anna", amnesomraden := some "Politik" },
   { namn := none, amnesomraden := some "Ekonomi" },
   { namn := some "Bo", amnesomraden := some "Sport" },
   { namn := some "Eva", amnesomraden := some "Kultur" }]

/-- C8: the importer drops exactly the rows missing name or subjects,
the resulting table is the surviving rows regardless of the prior table
content (drop-and-recreate), the reported load count is the number of
source rows, and on the specification's example it writes 3 records
with 1 dropped. -/
theorem C8_importer (rows old old' : List CsvRow) :
    (createDatabaseFromCsv rows old).1 = (createDatabaseFromCsv rows old').1 ∧
    (createDatabaseFromCsv rows old).1 = dropnaNameSubjects rows ∧
    (createDatabaseFromCsv rows old).2.rowsLoaded = rows.length ∧
    (createDatabaseFromCsv rows old).2.rowsRemaining = (dropnaNameSubjects rows).length ∧
    (createDatabaseFromCsv c8Rows old').1 = (createDatabaseFromCsv c8Rows []).1 ∧
    (createDatabaseFromCsv c8Rows []).1.length = 3 ∧
    (createDatabaseFromCsv c8Rows []).2.rowsLoaded
        - (createDatabaseFromCsv c8Rows []).2.rowsRemaining = 1 := by
  refine ⟨rfl, rfl, rfl, rfl, rfl, ?_, ?_⟩ <;> decide

end JournalistDB
